import Mathlib

/-!
Verification of the audio-mastering-tool frontend against its
natural-language specification.

Numbers that the TypeScript source manipulates are modelled as exact
rationals (`ℚ`); JavaScript runtime primitives (`Math.round`, `Math.min`,
`Math.max`, `Number.prototype.toFixed`, string building) are modelled by
explicit Lean functions defined below, following the ECMAScript semantics
of each primitive on finite inputs.
-/

namespace AudioTool

/-- ECMAScript `Math.round`: rounds to the nearest integer, with ties
(`x + 0.5` exactly representable) rounded toward positive infinity,
i.e. `Math.round x = ⌊x + 1/2⌋`. -/
def jsRound (q : ℚ) : ℤ := ⌊q + 1/2⌋

theorem jsRound_nonneg {q : ℚ} (h : 0 ≤ q) : 0 ≤ jsRound q := by
  have h2 : (0:ℚ) ≤ q + 1/2 := by linarith
  have := Int.floor_nonneg.mpr h2
  simpa [jsRound] using this

theorem jsRound_le_intCast {q : ℚ} {n : ℤ} (h : q ≤ (n : ℚ)) : jsRound q ≤ n := by
  have h2 : q + 1/2 ≤ (n : ℚ) + 1/2 := by linarith
  have hfl : ⌊q + 1/2⌋ ≤ ⌊(n : ℚ) + 1/2⌋ := Int.floor_le_floor h2
  have hn : ⌊(n : ℚ) + 1/2⌋ = n := by
    rw [add_comm, Int.floor_add_int]
    norm_num
  rw [jsRound]
  omega

/-!
### `SimilarityScore` component
`src/frontend/src/components/Reference/SimilarityScore.tsx`

The component computes `percent = Math.round(score * 100)` and renders a
bar of width `percent%`, a colour class chosen from `percent`, and the
text `percent%`.  Note: the source applies no clamping to `score`.
-/

structure SimilarityRender where
  percent : ℤ
  colorClass : String
  bgClass : String
  deriving Repr, DecidableEq

def SimilarityScore (score : ℚ) : SimilarityRender :=
  let percent := jsRound (score * 100)
  if percent ≥ 90 then ⟨percent, "text-green-400", "bg-green-500"⟩
  else if percent ≥ 70 then ⟨percent, "text-blue-400", "bg-blue-500"⟩
  else if percent ≥ 50 then ⟨percent, "text-yellow-400", "bg-yellow-500"⟩
  else ⟨percent, "text-slate-400", "bg-slate-500"⟩

theorem SimilarityScore_percent (score : ℚ) :
    (SimilarityScore score).percent = jsRound (score * 100) := by
  simp only [SimilarityScore]
  split <;> (try split) <;> (try split) <;> rfl

/-!
### `ProgressBar` component
`src/frontend/src/components/Progress/ProgressBar.tsx`

`clamped = Math.min(100, Math.max(0, percent))`; the bar width is
`clamped%` and the text label is `Math.round(clamped)%`.
-/

structure ProgressRender where
  widthPercent : ℚ
  labelPercent : ℤ
  isComplete : Bool
  deriving Repr, DecidableEq

def ProgressBar (percent : ℚ) : ProgressRender :=
  let clamped := min 100 (max 0 percent)
  ⟨clamped, jsRound clamped, decide (clamped ≥ 100)⟩

/-- C1 counterexample: the claim says the score is clamped to `≥ 0` before
display, so that at `score = -1/2` the rendered percentage would be
`round(100 * max 0 (-1/2)) = 0`; the component actually renders `-50`. -/
theorem C1_counterexample :
    (-1 : ℚ) ≤ -1/2 ∧ (-1/2 : ℚ) ≤ 1 ∧
      (SimilarityScore (-1/2)).percent = -50 ∧
      jsRound (100 * max 0 (-1/2 : ℚ)) = 0 ∧ (-50 : ℤ) ≠ 0 := by
  refine ⟨by norm_num, by norm_num, ?_, ?_, by norm_num⟩
  · rw [SimilarityScore_percent]
    norm_num [jsRound]
  · norm_num [jsRound]

/-- C1 (amended): the `SimilarityScore` component applies no clamping: the
rendered percentage equals `round(100 * s)` for every score `s`, so it lies
in `[0, 100]` when `s ∈ [0, 1]` but is negative for sufficiently negative
scores. -/
theorem C1_similarity_percent (s : ℚ) :
    (SimilarityScore s).percent = jsRound (100 * s) ∧
      (0 ≤ s → s ≤ 1 →
        0 ≤ (SimilarityScore s).percent ∧ (SimilarityScore s).percent ≤ 100) := by
  have hp : (SimilarityScore s).percent = jsRound (100 * s) := by
    rw [SimilarityScore_percent, mul_comm]
  refine ⟨hp, fun h0 h1 => ?_⟩
  rw [hp]
  constructor
  · exact jsRound_nonneg (by positivity)
  · exact jsRound_le_intCast (n := 100) (by push_cast; linarith)

/-- C1 witness: at `s = 1/2` the percent is `round(50) = 50 ∈ [0, 100]`. -/
theorem C1_witness :
    (SimilarityScore (1/2)).percent = jsRound (100 * (1/2 : ℚ)) ∧
      (0 ≤ (SimilarityScore (1/2 : ℚ)).percent ∧
        (SimilarityScore (1/2 : ℚ)).percent ≤ 100) :=
  ⟨(C1_similarity_percent (1/2)).1,
    (C1_similarity_percent (1/2)).2 (by norm_num) (by norm_num)⟩

/-- C7 counterexample: the claim says the rounded percent equals the input
whenever the input already lies in `[0, 100]`; at `percent = 1/2` the label
is `round(1/2) = 1 ≠ 1/2`. -/
theorem C7_counterexample :
    (0 : ℚ) ≤ 1/2 ∧ (1/2 : ℚ) ≤ 100 ∧
      (ProgressBar (1/2)).labelPercent = 1 ∧ ((1 : ℚ) ≠ 1/2) := by
  refine ⟨by norm_num, by norm_num, ?_, by norm_num⟩
  show jsRound (min 100 (max 0 (1/2 : ℚ))) = 1
  rw [show min 100 (max 0 (1/2 : ℚ)) = 1/2 by norm_num]
  norm_num [jsRound]

/-- C7 (amended): `ProgressBar` renders width `min(100, max(0, percent))`,
which always lies in `[0, 100]` and equals the input whenever the input is
already in `[0, 100]`; the text label is `round` of that clamped value (so
it equals the input only for integer inputs) and also lies in `[0, 100]`. -/
theorem C7_progressBar_clamps (p : ℚ) :
    (0 ≤ (ProgressBar p).widthPercent ∧ (ProgressBar p).widthPercent ≤ 100) ∧
      (0 ≤ (ProgressBar p).labelPercent ∧ (ProgressBar p).labelPercent ≤ 100) ∧
      (0 ≤ p → p ≤ 100 →
        (ProgressBar p).widthPercent = p ∧
          (ProgressBar p).labelPercent = jsRound p) := by
  have hw : (ProgressBar p).widthPercent = min 100 (max 0 p) := rfl
  have hl : (ProgressBar p).labelPercent = jsRound (min 100 (max 0 p)) := rfl
  have h0 : 0 ≤ min 100 (max 0 p) := le_min (by norm_num) (le_max_left 0 p)
  have h100 : min 100 (max 0 p) ≤ 100 := min_le_left _ _
  refine ⟨⟨by rw [hw]; exact h0, by rw [hw]; exact h100⟩, ?_, fun hp0 hp100 => ?_⟩
  · rw [hl]
    exact ⟨jsRound_nonneg h0, jsRound_le_intCast (n := 100) (by push_cast; linarith)⟩
  · have hclamp : min 100 (max 0 p) = p := by
      rw [max_eq_right hp0, min_eq_right hp100]
    exact ⟨by rw [hw, hclamp], by rw [hl, hclamp]⟩

/-- C7 witness: at `percent = 50` the width is `50` and the label is
`round(50) = 50`. -/
theorem C7_witness :
    (0 ≤ (ProgressBar 50).widthPercent ∧ (ProgressBar 50).widthPercent ≤ 100) ∧
      ((ProgressBar (50 : ℚ)).widthPercent = 50 ∧
        (ProgressBar (50 : ℚ)).labelPercent = jsRound 50) :=
  ⟨(C7_progressBar_clamps 50).1,
    (C7_progressBar_clamps 50).2.2 (by norm_num) (by norm_num)⟩

/-!
### JS number rendering primitives

`Number.prototype.toFixed(f)` per ECMAScript on a finite number `x`:
with `s = "-"` when `x < 0` and `x := |x|`, pick the integer `n ≥ 0` such
that `n / 10^f` is closest to `x` (ties toward the larger `n`, i.e.
`n = ⌊x * 10^f + 1/2⌋`), then render `n` with `f` forced decimals.
The definitions use explicit fuel so they reduce inside `decide`/`rfl`.
-/

def renderNatAux : Nat → Nat → List Char
  | 0, _ => []
  | fuel + 1, n =>
    if n < 10 then [Nat.digitChar n]
    else renderNatAux fuel (n / 10) ++ [Nat.digitChar (n % 10)]

/-- Base-10 digit characters of a natural number. -/
def renderNat (n : Nat) : List Char := renderNatAux (n + 1) n

/-- Base-10 rendering of an integer, with a leading minus sign. -/
def renderInt (i : ℤ) : List Char :=
  if i < 0 then '-' :: renderNat (-i).toNat else renderNat i.toNat

/-- `String.prototype.padStart(len, c)` on a character list. -/
def leftPad (len : Nat) (c : Char) (s : List Char) : List Char :=
  List.replicate (len - s.length) c ++ s

/-- Truncation toward zero, as used by the JS `%` operator. -/
def ratTrunc (q : ℚ) : ℤ := if q < 0 then ⌈q⌉ else ⌊q⌋

/-- JS remainder `a % b`: same sign as the dividend. -/
def jsRem (a b : ℚ) : ℚ := a - b * (ratTrunc (a / b) : ℚ)

def jsToFixedChars (q : ℚ) (f : Nat) : List Char :=
  let n := (⌊|q| * 10 ^ f + 1/2⌋).toNat
  let body :=
    if f = 0 then renderNat n
    else renderNat (n / 10 ^ f) ++ '.' :: leftPad f '0' (renderNat (n % 10 ^ f))
  if q < 0 then '-' :: body else body

def jsToFixed (q : ℚ) (f : Nat) : String := String.mk (jsToFixedChars q f)

/-- Characters that can occur in the numeric part of a formatted value:
decimal digits, the decimal point and the minus sign. -/
def numChar (c : Char) : Bool := c.isDigit || c == '.' || c == '-'

theorem digitChar_isDigit {k : Nat} (h : k < 10) :
    (Nat.digitChar k).isDigit = true := by
  interval_cases k <;> decide

theorem renderNatAux_numChar (fuel n : Nat) :
    ∀ c ∈ renderNatAux fuel n, numChar c = true := by
  induction fuel generalizing n with
  | zero => intro c hc; simp [renderNatAux] at hc
  | succ fuel ih =>
    intro c hc
    rw [renderNatAux] at hc
    split at hc
    · next h =>
      simp only [List.mem_singleton] at hc
      subst hc
      simp [numChar, digitChar_isDigit h]
    · next h =>
      rcases List.mem_append.mp hc with h1 | h1
      · exact ih _ c h1
      · simp only [List.mem_singleton] at h1
        subst h1
        simp [numChar, digitChar_isDigit (Nat.mod_lt _ (by norm_num))]

theorem renderNat_numChar (n : Nat) : ∀ c ∈ renderNat n, numChar c = true :=
  renderNatAux_numChar _ n

theorem renderInt_numChar (i : ℤ) : ∀ c ∈ renderInt i, numChar c = true := by
  intro c hc
  rw [renderInt] at hc
  split at hc
  · rcases List.mem_cons.mp hc with hc | hc
    · subst hc; decide
    · exact renderNat_numChar _ c hc
  · exact renderNat_numChar _ c hc

theorem leftPad_numChar {s : List Char} (len : Nat)
    (hs : ∀ c ∈ s, numChar c = true) :
    ∀ c ∈ leftPad len '0' s, numChar c = true := by
  intro c hc
  rcases List.mem_append.mp hc with h1 | h1
  · rw [List.eq_of_mem_replicate h1]
    decide
  · exact hs c h1

theorem jsToFixedChars_numChar (q : ℚ) (f : Nat) :
    ∀ c ∈ jsToFixedChars q f, numChar c = true := by
  intro c hc
  simp only [jsToFixedChars] at hc
  have hbody : ∀ c' ∈ (if f = 0 then
      renderNat (⌊|q| * 10 ^ f + 1/2⌋).toNat
    else renderNat ((⌊|q| * 10 ^ f + 1/2⌋).toNat / 10 ^ f) ++
      '.' :: leftPad f '0' (renderNat ((⌊|q| * 10 ^ f + 1/2⌋).toNat % 10 ^ f))),
      numChar c' = true := by
    intro c' hc'
    split at hc'
    · exact renderNat_numChar _ c' hc'
    · rcases List.mem_append.mp hc' with h1 | h1
      · exact renderNat_numChar _ c' h1
      · rcases List.mem_cons.mp h1 with h1 | h1
        · subst h1; decide
        · exact leftPad_numChar _ (renderNat_numChar _) c' h1
  split at hc
  · rcases List.mem_cons.mp hc with hc | hc
    · subst hc; decide
    · exact hbody c hc
  · exact hbody c hc

/-!
### Metric formatters
`src/frontend/src/utils/metricFormatters.ts`

Each formatter checks `value === null || value === undefined` (modelled by
`Option.none`) and returns `'N/A'`, otherwise renders the number with
`toFixed` and a unit suffix.  `formatDuration` uses `Math.floor` and the
JS `%` operator; the TS `formatDecimal` has default `places = 2`, modelled
here by an explicit `places` argument.
-/

def formatDb : Option ℚ → String
  | none => "N/A"
  | some value => jsToFixed value 1 ++ " dB"

def formatLufs : Option ℚ → String
  | none => "N/A"
  | some value => jsToFixed value 1 ++ " LUFS"

def formatLu : Option ℚ → String
  | none => "N/A"
  | some value => jsToFixed value 1 ++ " LU"

def formatHz : Option ℚ → String
  | none => "N/A"
  | some value =>
    if value ≥ 1000 then jsToFixed (value / 1000) 1 ++ " kHz"
    else jsToFixed value 0 ++ " Hz"

def formatPercent : Option ℚ → String
  | none => "N/A"
  | some value => jsToFixed value 1 ++ "%"

def formatDuration : Option ℚ → String
  | none => "N/A"
  | some seconds =>
    String.mk (renderInt ⌊seconds / 60⌋) ++ ":" ++
      String.mk (leftPad 2 '0' (renderInt ⌊jsRem seconds 60⌋))

def formatDecimal (value : Option ℚ) (places : Nat) : String :=
  match value with
  | none => "N/A"
  | some v => jsToFixed v places

def formatMs : Option ℚ → String
  | none => "N/A"
  | some value => jsToFixed value 1 ++ " ms"

/-- A formatter output is clean for a unit-character set `U` when every
character is numeric (digit, point, minus) or belongs to `U`. -/
def cleanFor (U : List Char) (s : String) : Prop :=
  ∀ c ∈ s.data, numChar c = true ∨ c ∈ U

theorem cleanFor_toFixed_append (q : ℚ) (f : Nat) (u : String) :
    cleanFor u.data (jsToFixed q f ++ u) := by
  intro c hc
  rw [String.data_append] at hc
  rcases List.mem_append.mp hc with h1 | h1
  · exact Or.inl (jsToFixedChars_numChar q f c h1)
  · exact Or.inr h1

theorem cleanFor_ne_NA {U : List Char} {s : String}
    (hclean : cleanFor U s) (hU : 'N' ∉ U) : s ≠ "N/A" := by
  intro he
  have hmem : 'N' ∈ s.data := by rw [he]; decide
  rcases hclean 'N' hmem with h | h
  · exact absurd h (by decide)
  · exact hU h

/-- C4: every metric formatter returns `'N/A'` exactly on null input and a
formatted numeric string (digits, point, minus, unit characters) otherwise;
no output character is `'N'` or `'I'` except inside the exact `'N/A'`
answer for null, so the texts `"NaN"` and `"Infinity"` never occur for
finite numeric inputs. -/
theorem C4_formatters_total :
    (formatDb none = "N/A" ∧ ∀ q, formatDb (some q) ≠ "N/A" ∧
      cleanFor [' ', 'd', 'B'] (formatDb (some q))) ∧
    (formatLufs none = "N/A" ∧ ∀ q, formatLufs (some q) ≠ "N/A" ∧
      cleanFor [' ', 'L', 'U', 'F', 'S'] (formatLufs (some q))) ∧
    (formatLu none = "N/A" ∧ ∀ q, formatLu (some q) ≠ "N/A" ∧
      cleanFor [' ', 'L', 'U'] (formatLu (some q))) ∧
    (formatHz none = "N/A" ∧ ∀ q, formatHz (some q) ≠ "N/A" ∧
      cleanFor [' ', 'k', 'H', 'z'] (formatHz (some q))) ∧
    (formatPercent none = "N/A" ∧ ∀ q, formatPercent (some q) ≠ "N/A" ∧
      cleanFor ['%'] (formatPercent (some q))) ∧
    (formatDuration none = "N/A" ∧ ∀ q, formatDuration (some q) ≠ "N/A" ∧
      cleanFor [':'] (formatDuration (some q))) ∧
    (∀ places, formatDecimal none places = "N/A" ∧
      ∀ q, formatDecimal (some q) places ≠ "N/A" ∧
        cleanFor [] (formatDecimal (some q) places)) ∧
    (formatMs none = "N/A" ∧ ∀ q, formatMs (some q) ≠ "N/A" ∧
      cleanFor [' ', 'm', 's'] (formatMs (some q))) ∧
    (∀ c ∈ [' ', 'd', 'B', 'L', 'U', 'F', 'S', 'k', 'H', 'z', '%', ':', 'm', 's'],
      c ≠ 'N' ∧ c ≠ 'I' ∧ c ≠ 'a') ∧
    numChar 'N' = false ∧ numChar 'I' = false := by
  have base : ∀ (f : Nat) (u : String), 'N' ∉ u.data →
      ∀ q : ℚ, (jsToFixed q f ++ u) ≠ "N/A" ∧
        cleanFor u.data (jsToFixed q f ++ u) := by
    intro f u hu q
    exact ⟨cleanFor_ne_NA (cleanFor_toFixed_append q f u) hu,
      cleanFor_toFixed_append q f u⟩
  refine ⟨⟨rfl, fun q => ?_⟩, ⟨rfl, fun q => ?_⟩, ⟨rfl, fun q => ?_⟩,
    ⟨rfl, fun q => ?_⟩, ⟨rfl, fun q => ?_⟩, ⟨rfl, fun q => ?_⟩,
    fun places => ⟨rfl, fun q => ?_⟩, ⟨rfl, fun q => ?_⟩, by decide, by decide,
    by decide⟩
  · exact base 1 " dB" (by decide) q
  · exact base 1 " LUFS" (by decide) q
  · exact base 1 " LU" (by decide) q
  · by_cases hq : q ≥ 1000
    · have he : formatHz (some q) = jsToFixed (q / 1000) 1 ++ " kHz" := by
        simp [formatHz, hq]
      rw [he]
      refine ⟨(base 1 " kHz" (by decide) (q / 1000)).1, ?_⟩
      intro c hc
      rcases (base 1 " kHz" (by decide) (q / 1000)).2 c hc with h | h
      · exact Or.inl h
      · right
        have hsub : " kHz".data ⊆ [' ', 'k', 'H', 'z'] := by decide
        exact hsub h
    · have he : formatHz (some q) = jsToFixed q 0 ++ " Hz" := by
        simp [formatHz, hq]
      rw [he]
      refine ⟨(base 0 " Hz" (by decide) q).1, ?_⟩
      intro c hc
      rcases (base 0 " Hz" (by decide) q).2 c hc with h | h
      · exact Or.inl h
      · right
        have hsub : " Hz".data ⊆ [' ', 'k', 'H', 'z'] := by decide
        exact hsub h
  · exact base 1 "%" (by decide) q
  · -- formatDuration: minutes, a colon, zero-padded seconds
    have hclean : cleanFor [':']
        (String.mk (renderInt ⌊q / 60⌋) ++ ":" ++
          String.mk (leftPad 2 '0' (renderInt ⌊jsRem q 60⌋))) := by
      intro c hc
      rw [String.data_append, String.data_append] at hc
      rcases List.mem_append.mp hc with h1 | h1
      · rcases List.mem_append.mp h1 with h2 | h2
        · exact Or.inl (renderInt_numChar _ c h2)
        · right; exact h2
      · exact Or.inl (leftPad_numChar _ (renderInt_numChar _) c h1)
    exact ⟨cleanFor_ne_NA hclean (by decide), hclean⟩
  · -- formatDecimal
    have hclean : cleanFor [] (jsToFixed q places) := by
      intro c hc
      exact Or.inl (jsToFixedChars_numChar q places c hc)
    exact ⟨cleanFor_ne_NA hclean (by decide), hclean⟩
  · exact base 1 " ms" (by decide) q

/-- C4 witness: `formatDb` at input `1` produces a string whose space
character is an admissible unit character, and null maps to `'N/A'`. -/
theorem C4_witness :
    formatDb none = "N/A" ∧ formatDb (some 1) ≠ "N/A" ∧
      (numChar ' ' = true ∨ ' ' ∈ [' ', 'd', 'B']) := by
  have h := C4_formatters_total.1
  have hmem : ' ' ∈ (formatDb (some 1)).data := by
    show ' ' ∈ (jsToFixed 1 1 ++ " dB").data
    rw [String.data_append]
    exact List.mem_append_right _ (by decide)
  exact ⟨h.1, (h.2 1).1, (h.2 1).2 ' ' hmem⟩

/-!
### Upload validator
`validateFile` in `src/unnamed/part_013` (file upload component).

The validator accepts a file exactly when the last dot-separated component
of its name, lowercased, is `"wav"` and the size does not exceed
`500 * 1024 * 1024` bytes; each rejection carries a message naming the
reason.
-/

structure JSFile where
  name : String
  size : Nat
  deriving Repr, DecidableEq

structure ValidationResult where
  valid : Bool
  error : Option String
  deriving Repr, DecidableEq

def MAX_FILE_SIZE : Nat := 500 * 1024 * 1024

/-- JS `String.prototype.split('.')` on the character list of a string:
splits at every `'.'`, always yielding at least one (possibly empty)
component. -/
def jsSplitDot : List Char → List (List Char)
  | [] => [[]]
  | c :: rest =>
    match jsSplitDot rest with
    | [] => [[c]]
    | s :: ss => if c = '.' then [] :: s :: ss else (c :: s) :: ss

/-- `file.name.split('.').pop()?.toLowerCase()`.  JS `split` always yields
a non-empty array, so `pop` returns its last element; the `getD []`
default is unreachable. -/
def fileExt (name : String) : String :=
  String.mk ((((jsSplitDot name.data).getLast?).getD []).map Char.toLower)

def validateFile (file : JSFile) : ValidationResult :=
  let ext := fileExt file.name
  if ext ≠ "wav" then
    ⟨false, some ("Unsupported format \"." ++ ext ++
      "\". Only WAV files are accepted.")⟩
  else if file.size > MAX_FILE_SIZE then
    ⟨false, some ("File is too large (" ++
      jsToFixed ((file.size : ℚ) / (1024 * 1024)) 1 ++
      " MB). Maximum size is 500 MB.")⟩
  else ⟨true, none⟩

/-- The acceptance condition as the specification states it: the final
dot-separated component of the name, lowercased, is `"wav"`, and the size
is at most `500 * 1024 * 1024` bytes. -/
def specUploadAccept (file : JSFile) : Prop :=
  fileExt file.name = "wav" ∧ file.size ≤ 500 * 1024 * 1024

theorem ne_empty_of_data_ne_nil {s : String} (h : s.data ≠ []) : s ≠ "" := by
  intro he
  rw [he] at h
  exact h rfl

/-- C5: `validateFile` accepts exactly the files whose final dot-separated
name component lowercases to `"wav"` and whose size is at most
`500 * 1024 * 1024` bytes, and every rejection carries a non-empty error
message. -/
theorem C5_validateFile (file : JSFile) :
    ((validateFile file).valid = true ↔ specUploadAccept file) ∧
      ((validateFile file).valid = false →
        ∃ msg, (validateFile file).error = some msg ∧ msg ≠ "") ∧
      ((validateFile file).valid = true → (validateFile file).error = none) := by
  by_cases hext : fileExt file.name = "wav"
  · by_cases hsize : file.size > MAX_FILE_SIZE
    · have he : validateFile file = ⟨false, some ("File is too large (" ++
          jsToFixed ((file.size : ℚ) / (1024 * 1024)) 1 ++
          " MB). Maximum size is 500 MB.")⟩ := by
        simp [validateFile, hext, hsize]
      rw [he]
      refine ⟨?_, fun _ => ⟨_, rfl, ?_⟩, by simp⟩
      · simp only [specUploadAccept]
        constructor
        · intro h; cases h
        · rintro ⟨-, h2⟩
          have hsize' : file.size > 500 * 1024 * 1024 := by
            simpa [MAX_FILE_SIZE] using hsize
          omega
      · apply ne_empty_of_data_ne_nil
        rw [String.data_append, String.data_append]
        simp
    · have he : validateFile file = ⟨true, none⟩ := by
        simp [validateFile, hext, hsize]
      rw [he]
      refine ⟨?_, by simp, by simp⟩
      simp only [specUploadAccept]
      constructor
      · intro _
        refine ⟨hext, ?_⟩
        simp [MAX_FILE_SIZE] at hsize
        omega
      · intro _; trivial
  · have he : validateFile file = ⟨false, some ("Unsupported format \"." ++
        fileExt file.name ++ "\". Only WAV files are accepted.")⟩ := by
      simp [validateFile, hext]
    rw [he]
    refine ⟨?_, fun _ => ⟨_, rfl, ?_⟩, by simp⟩
    · simp only [specUploadAccept]
      constructor
      · intro h; cases h
      · intro h
        exact absurd h.1 hext
    · apply ne_empty_of_data_ne_nil
      rw [String.data_append, String.data_append]
      simp

/-- C5 witness: `song.WAV` of size 4 bytes is accepted; `song.mp3` is
rejected with a non-empty message. -/
theorem C5_witness :
    ((validateFile ⟨"song.WAV", 4⟩).valid = true ↔
        specUploadAccept ⟨"song.WAV", 4⟩) ∧
      (∃ msg, (validateFile ⟨"song.mp3", 4⟩).error = some msg ∧ msg ≠ "") :=
  ⟨(C5_validateFile ⟨"song.WAV", 4⟩).1,
    (C5_validateFile ⟨"song.mp3", 4⟩).2.1 (by decide)⟩

/-!
### API client error mapping
`AudioAnalysisAPI.handleError` in `src/unnamed/part_017`.

The caught `unknown` value is either an `AxiosError` (with an optional
`response`, an optional `code` and a `message`), some other `Error`
instance, or an arbitrary value modelled by its `String(err)` rendering.
-/

structure AxiosResponse where
  status : Nat
  detail : Option String
  statusText : String
  deriving Repr, DecidableEq

inductive CaughtError where
  | axios (response : Option AxiosResponse) (code : Option String)
      (message : String)
  | jsError (message : String)
  | other (stringRepr : String)
  deriving Repr, DecidableEq

structure JSError where
  message : String
  deriving Repr, DecidableEq

/-- `err.response.data?.detail || err.response.statusText`: JS `||` falls
back to `statusText` when `detail` is absent or the empty string. -/
def responseDetail (r : AxiosResponse) : String :=
  match r.detail with
  | some d => if d = "" then r.statusText else d
  | none => r.statusText

def handleError : CaughtError → JSError
  | .axios (some r) _ _ =>
    if r.status = 422 then ⟨"Validation error: " ++ responseDetail r⟩
    else if r.status = 404 then ⟨"Not found: " ++ responseDetail r⟩
    else if r.status ≥ 500 then
      ⟨"Server error (" ++ String.mk (renderNat r.status) ++ "): " ++
        responseDetail r⟩
    else
      ⟨"Request failed (" ++ String.mk (renderNat r.status) ++ "): " ++
        responseDetail r⟩
  | .axios none code message =>
    if code = some "ECONNREFUSED" then
      ⟨"Cannot connect to backend. Please check that the server is running."⟩
    else if code = some "ETIMEDOUT" ∨ code = some "ECONNABORTED" then
      ⟨"Request timed out. Please try again."⟩
    else ⟨"Network error: " ++ message⟩
  | .jsError message => ⟨message⟩
  | .other s => ⟨s⟩

/-- C6 counterexample: `handleError` returns a non-Axios `Error` unchanged,
so for a caught `Error` whose own message is empty the result message is
empty, refuting "always returns an Error with a non-empty message". -/
theorem C6_counterexample : (handleError (.jsError "")).message = "" := rfl

theorem append_ne_empty_left {a b : String} (ha : a.data ≠ []) :
    a ++ b ≠ "" := by
  apply ne_empty_of_data_ne_nil
  rw [String.data_append]
  simp [ha]

/-- C6 (amended): `handleError` always returns (never throws, being a total
function); for Axios failures the message is non-empty and is mapped by
category exactly as claimed (422 → `Validation error:`, 404 → `Not found:`,
status ≥ 500 → `Server error (status):`, other response statuses →
`Request failed (status):`, connection refused and timeout codes → fixed
messages); a non-Axios `Error` is returned as-is, so its message — and only
in that case — may be empty. -/
theorem C6_handleError_maps (r : AxiosResponse) (code : Option String)
    (msg : String) :
    ((r.status = 422 → handleError (.axios (some r) code msg) =
        ⟨"Validation error: " ++ responseDetail r⟩) ∧
      (r.status = 404 → handleError (.axios (some r) code msg) =
        ⟨"Not found: " ++ responseDetail r⟩) ∧
      (500 ≤ r.status → handleError (.axios (some r) code msg) =
        ⟨"Server error (" ++ String.mk (renderNat r.status) ++ "): " ++
          responseDetail r⟩) ∧
      (r.status ≠ 422 → r.status ≠ 404 → r.status < 500 →
        handleError (.axios (some r) code msg) =
          ⟨"Request failed (" ++ String.mk (renderNat r.status) ++ "): " ++
            responseDetail r⟩) ∧
      (handleError (.axios (some r) code msg)).message ≠ "") ∧
      handleError (.axios none (some "ECONNREFUSED") msg) =
        ⟨"Cannot connect to backend. Please check that the server is running."⟩ ∧
      handleError (.axios none (some "ETIMEDOUT") msg) =
        ⟨"Request timed out. Please try again."⟩ ∧
      handleError (.axios none (some "ECONNABORTED") msg) =
        ⟨"Request timed out. Please try again."⟩ ∧
      (∀ m, handleError (.jsError m) = ⟨m⟩) := by
  refine ⟨⟨?_, ?_, ?_, ?_, ?_⟩, by simp [handleError], by simp [handleError],
    by simp [handleError], fun m => rfl⟩
  · intro h; simp [handleError, h]
  · intro h; simp [handleError, h]
  · intro h
    have h422 : r.status ≠ 422 := by omega
    have h404 : r.status ≠ 404 := by omega
    simp [handleError, h422, h404, h]
  · intro h422 h404 hlt
    have : ¬ (500 ≤ r.status) := by omega
    simp [handleError, h422, h404, this]
  · show (handleError (.axios (some r) code msg)).message ≠ ""
    rw [handleError]
    split
    · exact append_ne_empty_left (by decide)
    · split
      · exact append_ne_empty_left (by decide)
      · split
        · show ("Server error (" ++ String.mk (renderNat r.status)) ++ "): " ++
              responseDetail r ≠ ""
          exact append_ne_empty_left (by
            rw [String.data_append]
            simp)
        · show ("Request failed (" ++ String.mk (renderNat r.status)) ++ "): " ++
              responseDetail r ≠ ""
          exact append_ne_empty_left (by
            rw [String.data_append]
            simp)

/-- C6 witness: a 422 response with detail `"bad"` maps to
`Validation error: bad`, and the empty message of that response is never
produced. -/
theorem C6_witness :
    handleError (.axios (some ⟨422, some "bad", "Unprocessable"⟩) none "x") =
        ⟨"Validation error: bad"⟩ ∧
      (handleError (.axios (some ⟨422, some "bad", "Unprocessable"⟩) none
        "x")).message ≠ "" := by
  refine ⟨?_, ?_⟩
  · have h := (C6_handleError_maps ⟨422, some "bad", "Unprocessable"⟩ none "x").1.1 rfl
    rw [h]
    decide
  · exact (C6_handleError_maps ⟨422, some "bad", "Unprocessable"⟩ none "x").1.2.2.2.2

/-!
### Dashboard card types and severity ordering
`src/frontend/src/components/Dashboard/types.ts` and
`src/frontend/src/utils/cardOrdering.ts`.

`orderCardsBySeverity` copies the array (`[...cards]`) and sorts it with
the comparator `SEVERITY_ORDER[a.severity] - SEVERITY_ORDER[b.severity]`,
returning `0` for equal severities.  ECMAScript `Array.prototype.sort` is
required to be stable and to order the result by the (consistent)
comparator; the unique stable sort by a total preorder is insertion sort,
which is how the call is modelled.
-/

inductive SeverityLevel where
  | good
  | attention
  | issue
  deriving Repr, DecidableEq

def SEVERITY_ORDER : SeverityLevel → Nat
  | .issue => 0
  | .attention => 1
  | .good => 2

structure BandData where
  bandName : String
  value : ℚ
  unit : String
  color : String
  deriving Repr, DecidableEq

structure MetricCardData where
  category : String
  title : String
  severity : SeverityLevel
  primaryValue : String
  primaryLabel : String
  secondaryValue : String
  secondaryLabel : String
  bands : List BandData
  recommendation : Option String
  expanded : Bool
  deriving Repr, DecidableEq

def cardLe (a b : MetricCardData) : Prop :=
  SEVERITY_ORDER a.severity ≤ SEVERITY_ORDER b.severity

instance : DecidableRel cardLe := fun _ _ =>
  inferInstanceAs (Decidable (_ ≤ _))

instance : IsTotal MetricCardData cardLe :=
  ⟨fun _ _ => Nat.le_total _ _⟩

instance : IsTrans MetricCardData cardLe :=
  ⟨fun _ _ _ => Nat.le_trans⟩

def orderCardsBySeverity (cards : List MetricCardData) : List MetricCardData :=
  List.insertionSort cardLe cards

theorem filter_orderedInsert_pos {α : Type} (r : α → α → Prop) [DecidableRel r]
    (p : α → Bool) (a : α) (l : List α) (hpa : p a = true)
    (h : ∀ b, ¬ r a b → p b = false) :
    (List.orderedInsert r a l).filter p = a :: l.filter p := by
  induction l with
  | nil => simp [hpa]
  | cons b l ih =>
    by_cases hr : r a b
    · simp [List.orderedInsert, hr, hpa]
    · have hb : p b = false := h b hr
      simp [List.orderedInsert, hr, hb, ih]

theorem filter_orderedInsert_neg {α : Type} (r : α → α → Prop) [DecidableRel r]
    (p : α → Bool) (a : α) (l : List α) (hpa : p a = false) :
    (List.orderedInsert r a l).filter p = l.filter p := by
  induction l with
  | nil => simp [hpa]
  | cons b l ih =>
    by_cases hr : r a b
    · simp [List.orderedInsert, hr, hpa]
    · simp [List.orderedInsert, hr, List.filter_cons, ih]

theorem orderCards_filter_severity (cards : List MetricCardData)
    (s : SeverityLevel) :
    (orderCardsBySeverity cards).filter (fun c => c.severity == s) =
      cards.filter (fun c => c.severity == s) := by
  unfold orderCardsBySeverity
  induction cards with
  | nil => rfl
  | cons a l ih =>
    show (List.orderedInsert cardLe a (List.insertionSort cardLe l)).filter _ = _
    by_cases hpa : (a.severity == s) = true
    · rw [filter_orderedInsert_pos cardLe _ a _ hpa ?side, ih]
      · simp [List.filter_cons, hpa]
      case side =>
        intro b hr
        have hab : ¬ SEVERITY_ORDER a.severity ≤ SEVERITY_ORDER b.severity := hr
        have has : a.severity = s := by simpa using hpa
        by_contra hb
        have hbs : b.severity = s := by
          simpa using Bool.of_not_eq_false hb
        rw [has, ← hbs] at hab
        exact hab le_rfl
    · have hpa' : (a.severity == s) = false := by
        simpa using hpa
      rw [filter_orderedInsert_neg cardLe _ a _ hpa', ih]
      simp [List.filter_cons, hpa']

/-- C9: `orderCardsBySeverity` returns a permutation of its input that is
sorted by severity rank (`issue` before `attention` before `good`), and
within each severity level the cards keep their original relative order
(stability); the input list itself is untouched (the source first copies
the array with `[...cards]`). -/
theorem C9_orderCardsBySeverity (cards : List MetricCardData) :
    (orderCardsBySeverity cards).Perm cards ∧
      List.Pairwise
        (fun a b => SEVERITY_ORDER a.severity ≤ SEVERITY_ORDER b.severity)
        (orderCardsBySeverity cards) ∧
      ∀ s, (orderCardsBySeverity cards).filter (fun c => c.severity == s) =
        cards.filter (fun c => c.severity == s) :=
  ⟨List.perm_insertionSort cardLe cards,
    List.sorted_insertionSort cardLe cards,
    fun s => orderCards_filter_severity cards s⟩

/-!
### Band metric records and `sortBands`
`src/unnamed/part_002` (dashboard card mapping module).

`BAND_ORDER = ['low', 'low_mid', 'mid', 'high_mid', 'high']`;
`sortBands` copies the array and sorts it by
`BAND_ORDER.indexOf(name.toLowerCase().replace(/[\s-]/g, '_'))` using the
comparator `aIdx - bIdx`; as for `orderCardsBySeverity`, the stable
comparator sort is modelled by insertion sort on the key order.
Only the fields that the card-mapping module reads are modelled.
-/

structure BandMetricResponse where
  band_name : String
  band_rms_dbfs : Option ℚ
  dynamic_range_db : Option ℚ
  energy_db : Option ℚ
  stereo_width_percent : Option ℚ
  thd_percent : Option ℚ
  harmonic_ratio : Option ℚ
  transient_preservation : Option ℚ
  attack_time_ms : Option ℚ
  deriving Repr, DecidableEq

def BAND_ORDER : List String := ["low", "low_mid", "mid", "high_mid", "high"]

/-- One character of `toLowerCase().replace(/[\s-]/g, '_')`: whitespace
and hyphens become underscores. -/
def normalizeBandChar (c : Char) : Char :=
  if c = ' ' ∨ c = '\t' ∨ c = '\n' ∨ c = '\r' ∨ c = '-' then '_' else c

def normalizeBandName (s : String) : String :=
  String.mk (s.data.map (fun c => normalizeBandChar c.toLower))

/-- `BAND_ORDER.indexOf(s)` for an already-normalized name: the index, or
`-1` when absent. -/
def bandOrderIdx (s : String) : ℤ :=
  match BAND_ORDER.findIdx? (fun t => t == s) with
  | some i => (i : ℤ)
  | none => -1

def bandIdx (name : String) : ℤ := bandOrderIdx (normalizeBandName name)

def bandLe (a b : BandMetricResponse) : Prop :=
  bandIdx a.band_name ≤ bandIdx b.band_name

instance : DecidableRel bandLe := fun _ _ =>
  inferInstanceAs (Decidable (_ ≤ _))

instance : IsTotal BandMetricResponse bandLe :=
  ⟨fun _ _ => Int.le_total _ _⟩

instance : IsTrans BandMetricResponse bandLe :=
  ⟨fun _ _ _ => Int.le_trans⟩

def sortBands (bands : List BandMetricResponse) : List BandMetricResponse :=
  List.insertionSort bandLe bands

theorem map_eq_of_inj_on {α β : Type} [DecidableEq α] (g : α → β) (S : List α)
    (hinj : ∀ a ∈ S, ∀ b ∈ S, g a = g b → a = b) :
    ∀ l₁ l₂ : List α, (∀ x ∈ l₁, x ∈ S) → (∀ x ∈ l₂, x ∈ S) →
      l₁.map g = l₂.map g → l₁ = l₂ := by
  intro l₁
  induction l₁ with
  | nil =>
    intro l₂ _ _ hm
    cases l₂ with
    | nil => rfl
    | cons b l₂ => cases hm
  | cons a l₁ ih =>
    intro l₂ h₁ h₂ hm
    cases l₂ with
    | nil => cases hm
    | cons b l₂ =>
      simp only [List.map_cons, List.cons.injEq] at hm
      have hab : a = b :=
        hinj a (h₁ a (List.mem_cons_self a l₁)) b (h₂ b (List.mem_cons_self b l₂)) hm.1
      rw [hab, ih l₂ (fun x hx => h₁ x (List.mem_cons_of_mem a hx))
        (fun x hx => h₂ x (List.mem_cons_of_mem b hx)) hm.2]

/-- C3: on an input holding one record for each of the five bands (names
in any case, with spaces or hyphens in place of underscores), `sortBands`
returns the records ordered `low, low_mid, mid, high_mid, high`, and the
result is a permutation of the (uncopied, unmutated) input. -/
theorem C3_sortBands (bands : List BandMetricResponse)
    (h : (bands.map (fun b => normalizeBandName b.band_name)).Perm BAND_ORDER) :
    (sortBands bands).map (fun b => normalizeBandName b.band_name) = BAND_ORDER ∧
      (sortBands bands).Perm bands := by
  have hperm : (sortBands bands).Perm bands := List.perm_insertionSort bandLe bands
  refine ⟨?_, hperm⟩
  have hns : ((sortBands bands).map
      (fun b => normalizeBandName b.band_name)).Perm BAND_ORDER :=
    (hperm.map _).trans h
  have hsorted : List.Pairwise bandLe (sortBands bands) :=
    List.sorted_insertionSort bandLe bands
  have hkeys_sorted : List.Pairwise (fun x y : ℤ => x ≤ y)
      (((sortBands bands).map (fun b => normalizeBandName b.band_name)).map
        bandOrderIdx) := by
    rw [List.map_map]
    exact List.Pairwise.map _ (fun a b hab => hab) hsorted
  have hkeys_perm : ((((sortBands bands).map
      (fun b => normalizeBandName b.band_name)).map bandOrderIdx)).Perm
      (BAND_ORDER.map bandOrderIdx) := hns.map _
  have hBAND : BAND_ORDER.map bandOrderIdx = [0, 1, 2, 3, 4] := by decide
  have hkeys : (((sortBands bands).map
      (fun b => normalizeBandName b.band_name)).map bandOrderIdx) =
      [0, 1, 2, 3, 4] := by
    refine List.eq_of_perm_of_sorted (hkeys_perm.trans (by rw [hBAND])) hkeys_sorted ?_
    decide
  refine map_eq_of_inj_on bandOrderIdx BAND_ORDER ?_ _ _ ?_ ?_ ?_
  · decide
  · intro x hx
    exact hns.mem_iff.mp hx
  · intro x hx
    exact hx
  · rw [hkeys, hBAND]

/-- C3 witness: a concrete five-band input in scrambled order and mixed
spelling is returned in canonical order. -/
theorem C3_witness :
    (sortBands [⟨"HIGH", none, none, none, none, none, none, none, none⟩,
        ⟨"low mid", none, none, none, none, none, none, none, none⟩,
        ⟨"Low", none, none, none, none, none, none, none, none⟩,
        ⟨"high-mid", none, none, none, none, none, none, none, none⟩,
        ⟨"mid", none, none, none, none, none, none, none, none⟩]).map
      (fun b => normalizeBandName b.band_name) = BAND_ORDER :=
  (C3_sortBands _ (by decide)).1

/-!
### `ProgressWebSocket` reconnection machine
`src/frontend/src/api/websocket.ts`.

The class keeps a `reconnectAttempts` counter with
`maxReconnectAttempts = 3` and `reconnectDelay = 1000`.  `onopen` resets
the counter; `onclose` with a code other than `1000` and
`reconnectAttempts < maxReconnectAttempts` calls `attemptReconnect`, which
increments the counter and schedules `establishConnection` after
`reconnectDelay * 2^(reconnectAttempts - 1)` ms; `disconnect()` closes the
socket with code `1000` and resets the counter.  The event-driven handler
code is modelled as a step function from handler events to state updates
plus emitted actions.
-/

def maxReconnectAttempts : Nat := 3

def reconnectDelay : Nat := 1000

structure WSState where
  reconnectAttempts : Nat
  deriving Repr, DecidableEq

inductive WSAction where
  | reconnect (delayMs : Nat)
  | closeSocket
  deriving Repr, DecidableEq

inductive WSEvent where
  | onOpen
  | onClose (code : Nat)
  | disconnect
  deriving Repr, DecidableEq

def wsStep : WSState → WSEvent → WSState × List WSAction
  | _, .onOpen => (⟨0⟩, [])
  | s, .onClose code =>
    if code ≠ 1000 ∧ s.reconnectAttempts < maxReconnectAttempts then
      (⟨s.reconnectAttempts + 1⟩,
        [.reconnect (reconnectDelay * 2 ^ s.reconnectAttempts)])
    else (s, [])
  | _, .disconnect => (⟨0⟩, [.closeSocket])

def wsRun : WSState → List WSEvent → WSState × List WSAction
  | s, [] => (s, [])
  | s, e :: es =>
    let step := wsStep s e
    let rest := wsRun step.1 es
    (rest.1, step.2 ++ rest.2)

def isReconnect : WSAction → Bool
  | .reconnect _ => true
  | .closeSocket => false

def countReconnects (as : List WSAction) : Nat := as.countP isReconnect

theorem wsRun_bound :
    ∀ (es : List WSEvent) (s : WSState),
      (∀ e ∈ es, e ≠ .onOpen ∧ e ≠ .disconnect) →
      s.reconnectAttempts ≤ maxReconnectAttempts →
      (wsRun s es).1.reconnectAttempts ≤ maxReconnectAttempts ∧
        s.reconnectAttempts + countReconnects (wsRun s es).2 =
          (wsRun s es).1.reconnectAttempts := by
  intro es
  induction es with
  | nil =>
    intro s _ hs
    exact ⟨hs, by simp [wsRun, countReconnects]⟩
  | cons e es ih =>
    intro s h hs
    have he := h e (List.mem_cons_self e es)
    have hes : ∀ e' ∈ es, e' ≠ WSEvent.onOpen ∧ e' ≠ WSEvent.disconnect :=
      fun e' he' => h e' (List.mem_cons_of_mem e he')
    cases e with
    | onOpen => exact absurd rfl he.1
    | disconnect => exact absurd rfl he.2
    | onClose code =>
      by_cases hc : code ≠ 1000 ∧ s.reconnectAttempts < maxReconnectAttempts
      · have hstep : wsStep s (.onClose code) =
            (⟨s.reconnectAttempts + 1⟩,
              [.reconnect (reconnectDelay * 2 ^ s.reconnectAttempts)]) := by
          simp only [wsStep, if_pos hc]
        have hlt : s.reconnectAttempts + 1 ≤ maxReconnectAttempts := hc.2
        have ih1 : (wsRun ⟨s.reconnectAttempts + 1⟩ es).1.reconnectAttempts ≤
            maxReconnectAttempts := (ih ⟨s.reconnectAttempts + 1⟩ hes hlt).1
        have ih2 : s.reconnectAttempts + 1 +
            countReconnects (wsRun ⟨s.reconnectAttempts + 1⟩ es).2 =
            (wsRun ⟨s.reconnectAttempts + 1⟩ es).1.reconnectAttempts :=
          (ih ⟨s.reconnectAttempts + 1⟩ hes hlt).2
        have hrun : wsRun s (WSEvent.onClose code :: es) =
            ((wsRun ⟨s.reconnectAttempts + 1⟩ es).1,
              [WSAction.reconnect (reconnectDelay * 2 ^ s.reconnectAttempts)] ++
                (wsRun ⟨s.reconnectAttempts + 1⟩ es).2) := by
          simp only [wsRun, hstep]
        rw [hrun]
        refine ⟨ih1, ?_⟩
        have hcount : countReconnects
            ([WSAction.reconnect (reconnectDelay * 2 ^ s.reconnectAttempts)] ++
              (wsRun ⟨s.reconnectAttempts + 1⟩ es).2) =
            1 + countReconnects (wsRun ⟨s.reconnectAttempts + 1⟩ es).2 := by
          simp [countReconnects, isReconnect, List.countP_append]
          omega
        show s.reconnectAttempts + countReconnects
            ([WSAction.reconnect (reconnectDelay * 2 ^ s.reconnectAttempts)] ++
              (wsRun ⟨s.reconnectAttempts + 1⟩ es).2) =
          (wsRun ⟨s.reconnectAttempts + 1⟩ es).1.reconnectAttempts
        rw [hcount]
        omega
      · have hstep : wsStep s (.onClose code) = (s, []) := by
          simp only [wsStep, if_neg hc]
        have ih1 := (ih s hes hs).1
        have ih2 := (ih s hes hs).2
        have hrun : wsRun s (WSEvent.onClose code :: es) =
            ((wsRun s es).1, [] ++ (wsRun s es).2) := by
          simp only [wsRun, hstep]
        rw [hrun]
        exact ⟨ih1, by simpa using ih2⟩

/-- C10: within one connection sequence (no successful `onopen` and no
`disconnect` in between), a `ProgressWebSocket` starting from a fresh
counter performs at most 3 reconnection attempts; a close event with code
`1000` never triggers a reconnection; `disconnect` resets the counter to
`0`; and the `k`-th reconnection (from counter value `k-1`) is scheduled
with delay `1000 * 2^(k-1)` ms. -/
theorem C10_websocket_reconnect (events : List WSEvent) (s : WSState)
    (code : Nat) :
    ((∀ e ∈ events, e ≠ WSEvent.onOpen ∧ e ≠ WSEvent.disconnect) →
      countReconnects (wsRun ⟨0⟩ events).2 ≤ 3) ∧
      wsStep s (.onClose 1000) = (s, []) ∧
      (wsStep s .disconnect).1.reconnectAttempts = 0 ∧
      (code ≠ 1000 → s.reconnectAttempts < maxReconnectAttempts →
        wsStep s (.onClose code) =
          (⟨s.reconnectAttempts + 1⟩,
            [.reconnect (reconnectDelay * 2 ^ s.reconnectAttempts)])) := by
  refine ⟨?_, ?_, rfl, ?_⟩
  · intro h
    have hb := wsRun_bound events ⟨0⟩ h (by simp [maxReconnectAttempts])
    have h1 := hb.1
    have h2 := hb.2
    simp only [maxReconnectAttempts] at h1
    omega
  · simp [wsStep]
  · intro h1 h2
    simp only [wsStep, if_pos (And.intro h1 h2)]

/-- C10 witness: four abnormal closes in a row from a fresh connection
yield exactly 3 reconnect attempts (`≤ 3`), and a reconnection from
counter `0` is scheduled after `1000 * 2^0` ms. -/
theorem C10_witness :
    countReconnects (wsRun ⟨0⟩
        [WSEvent.onClose 1006, WSEvent.onClose 1006,
          WSEvent.onClose 1006, WSEvent.onClose 1006]).2 ≤ 3 ∧
      wsStep ⟨0⟩ (.onClose 1006) = (⟨1⟩, [.reconnect (1000 * 2 ^ 0)]) :=
  ⟨(C10_websocket_reconnect
      [WSEvent.onClose 1006, WSEvent.onClose 1006,
        WSEvent.onClose 1006, WSEvent.onClose 1006] ⟨0⟩ 1006).1
      (by decide),
    by
      have h := (C10_websocket_reconnect [] ⟨0⟩ 1006).2.2.2 (by decide)
        (by simp [maxReconnectAttempts])
      simpa [reconnectDelay] using h⟩

/-!
### Analysis responses and the dashboard card mapping
`src/unnamed/part_018` (API response types) and `src/unnamed/part_002`
(`mapAnalysisToCards` and the per-category `map*` helpers).

Response fields that the card-mapping module never reads (ids, file
metadata, timestamps) are omitted from the records.  JS `x ?? 0` on a
nullable field is `Option.getD 0`, `overall?.f ?? null` is `Option.bind`,
and `arr.filter(v => v !== null)` on a nullable projection is
`List.filterMap`.
-/

structure OverallMetricResponse where
  integrated_lufs : Option ℚ
  loudness_range_lu : Option ℚ
  true_peak_dbfs : Option ℚ
  dynamic_range_db : Option ℚ
  crest_factor_db : Option ℚ
  avg_stereo_width_percent : Option ℚ
  avg_phase_correlation : Option ℚ
  spectral_centroid_hz : Option ℚ
  spectral_bandwidth_hz : Option ℚ
  deriving Repr, DecidableEq

structure RecommendationResponse where
  band_name : Option String
  metric_category : Option String
  severity : Option String
  recommendation_text : Option String
  analytical_text : Option String
  suggestive_text : Option String
  prescriptive_text : Option String
  deriving Repr, DecidableEq

structure AnalysisResponse where
  recommendation_level : String
  band_metrics : List BandMetricResponse
  overall_metrics : Option OverallMetricResponse
  recommendations : List RecommendationResponse
  deriving Repr, DecidableEq

/-- JS `toLowerCase`, character-wise (kernel-reducible, unlike
`String.toLower`). -/
def jsToLower (s : String) : String := String.mk (s.data.map Char.toLower)

/-- JS string truthiness: a string is truthy iff non-empty (and `null` /
`undefined` are falsy). -/
def truthy : Option String → Bool
  | some t => ! (t == "")
  | none => false

def findRecommendation (recommendations : List RecommendationResponse)
    (category : String) : Option RecommendationResponse :=
  recommendations.find? (fun r =>
    match r.metric_category with
    | some c => jsToLower c == jsToLower category
    | none => false)

def getRecommendationText (rcm : Option RecommendationResponse)
    (level : String) : Option String :=
  match rcm with
  | none => none
  | some r =>
    let normalized := jsToLower level
    if normalized == "prescriptive" && truthy r.prescriptive_text then
      r.prescriptive_text
    else if normalized == "suggestive" && truthy r.suggestive_text then
      r.suggestive_text
    else if normalized == "analytical" && truthy r.analytical_text then
      r.analytical_text
    else if truthy r.recommendation_text then r.recommendation_text
    else none

def recSeverityToLevel (severity : Option String) : SeverityLevel :=
  if truthy severity = false then .good
  else
    let s := jsToLower (severity.getD "")
    if s == "issue" || s == "critical" || s == "high" then .issue
    else if s == "attention" || s == "warning" || s == "medium" then .attention
    else .good

/-!
Band colour and display-name helpers from
`src/frontend/src/utils/bandColors.ts`; both normalize the band name the
same way as `sortBands` does.
-/

def BAND_COLORS : List (String × String) :=
  [("low", "#3b82f6"), ("low_mid", "#10b981"), ("mid", "#f59e0b"),
    ("high_mid", "#ef4444"), ("high", "#8b5cf6")]

def recordLookup (m : List (String × String)) (k : String) : Option String :=
  (m.find? (fun p => p.1 == k)).map Prod.snd

def getBandColor (bandName : String) : String :=
  (recordLookup BAND_COLORS (normalizeBandName bandName)).getD "#6b7280"

def BAND_DISPLAY_NAMES : List (String × String) :=
  [("low", "Low"), ("low_mid", "Low Mid"), ("mid", "Mid"),
    ("high_mid", "High Mid"), ("high", "High")]

def getBandDisplayName (bandName : String) : String :=
  (recordLookup BAND_DISPLAY_NAMES (normalizeBandName bandName)).getD bandName

def mapLoudness (results : AnalysisResponse) (expanded : Bool) :
    MetricCardData :=
  let overall := results.overall_metrics
  let sorted := sortBands results.band_metrics
  let rcm := findRecommendation results.recommendations "loudness"
  let severity : SeverityLevel :=
    match rcm with
    | some r => recSeverityToLevel r.severity
    | none =>
      match overall.bind (fun o => o.integrated_lufs) with
      | some lufs =>
        if lufs > -6 ∨ lufs < -16 then .issue
        else if lufs > -8 ∨ lufs < -14 then .attention
        else .good
      | none => .good
  { category := "loudness"
    title := "Loudness"
    severity := severity
    primaryValue := formatLufs (overall.bind (fun o => o.integrated_lufs))
    primaryLabel := "Integrated Loudness"
    secondaryValue := formatLu (overall.bind (fun o => o.loudness_range_lu))
    secondaryLabel := "Loudness Range"
    bands := sorted.map (fun b =>
      { bandName := getBandDisplayName b.band_name
        value := b.band_rms_dbfs.getD 0
        unit := "dBFS"
        color := getBandColor b.band_name })
    recommendation := getRecommendationText rcm results.recommendation_level
    expanded := expanded }

def mapDynamics (results : AnalysisResponse) (expanded : Bool) :
    MetricCardData :=
  let overall := results.overall_metrics
  let sorted := sortBands results.band_metrics
  let rcm := findRecommendation results.recommendations "dynamics"
  let severity : SeverityLevel :=
    match rcm with
    | some r => recSeverityToLevel r.severity
    | none =>
      match overall.bind (fun o => o.dynamic_range_db) with
      | some dr =>
        if dr < 4 ∨ dr > 20 then .issue
        else if dr < 6 ∨ dr > 16 then .attention
        else .good
      | none => .good
  { category := "dynamics"
    title := "Dynamics"
    severity := severity
    primaryValue :=
      match overall.bind (fun o => o.dynamic_range_db) with
      | some dr => jsToFixed dr 1 ++ " DR"
      | none => "N/A"
    primaryLabel := "Dynamic Range"
    secondaryValue := formatDb (overall.bind (fun o => o.crest_factor_db))
    secondaryLabel := "Crest Factor"
    bands := sorted.map (fun b =>
      { bandName := getBandDisplayName b.band_name
        value := b.dynamic_range_db.getD 0
        unit := "dB"
        color := getBandColor b.band_name })
    recommendation := getRecommendationText rcm results.recommendation_level
    expanded := expanded }

/-- `mapFrequency` compares `stdDev = Math.sqrt(variance)` against `3` and
`6`; since both sides are non-negative this is compared here as
`variance < 9` and `variance < 36`, which is equivalent and keeps the
definition inside `ℚ`. -/
def mapFrequency (results : AnalysisResponse) (expanded : Bool) :
    MetricCardData :=
  let overall := results.overall_metrics
  let sorted := sortBands results.band_metrics
  let rcm := findRecommendation results.recommendations "frequency"
  let energyValues := sorted.filterMap (fun b => b.energy_db)
  let baseSeverity : SeverityLevel :=
    match rcm with
    | some r => recSeverityToLevel r.severity
    | none => .good
  let n : ℚ := energyValues.length
  let mean := energyValues.sum / n
  let variance := (energyValues.map (fun v => (v - mean) ^ 2)).sum / n
  let labelAndSeverity : String × SeverityLevel :=
    if energyValues.length = 0 then ("N/A", baseSeverity)
    else if variance < 9 then ("Balanced", baseSeverity)
    else if variance < 36 then
      ("Slightly Imbalanced", if rcm.isSome then baseSeverity else .attention)
    else ("Imbalanced", if rcm.isSome then baseSeverity else .issue)
  { category := "frequency"
    title := "Frequency Balance"
    severity := labelAndSeverity.2
    primaryValue := labelAndSeverity.1
    primaryLabel := "Spectral Balance"
    secondaryValue := formatHz (overall.bind (fun o => o.spectral_centroid_hz))
    secondaryLabel := "Spectral Centroid"
    bands := sorted.map (fun b =>
      { bandName := getBandDisplayName b.band_name
        value := b.energy_db.getD 0
        unit := "dB"
        color := getBandColor b.band_name })
    recommendation := getRecommendationText rcm results.recommendation_level
    expanded := expanded }

def mapStereo (results : AnalysisResponse) (expanded : Bool) :
    MetricCardData :=
  let overall := results.overall_metrics
  let sorted := sortBands results.band_metrics
  let rcm := findRecommendation results.recommendations "stereo"
  let severity : SeverityLevel :=
    match rcm with
    | some r => recSeverityToLevel r.severity
    | none =>
      match overall.bind (fun o => o.avg_stereo_width_percent) with
      | some width =>
        if width < 20 ∨ width > 95 then .issue
        else if width < 40 ∨ width > 90 then .attention
        else .good
      | none => .good
  { category := "stereo"
    title := "Stereo Image"
    severity := severity
    primaryValue := formatPercent (overall.bind (fun o => o.avg_stereo_width_percent))
    primaryLabel := "Stereo Width"
    secondaryValue := formatDecimal (overall.bind (fun o => o.avg_phase_correlation)) 2
    secondaryLabel := "Phase Correlation"
    bands := sorted.map (fun b =>
      { bandName := getBandDisplayName b.band_name
        value := b.stereo_width_percent.getD 0
        unit := "%"
        color := getBandColor b.band_name })
    recommendation := getRecommendationText rcm results.recommendation_level
    expanded := expanded }

def listAverage (vs : List ℚ) : Option ℚ :=
  if vs.length = 0 then none else some (vs.sum / (vs.length : ℚ))

def mapHarmonics (results : AnalysisResponse) (expanded : Bool) :
    MetricCardData :=
  let sorted := sortBands results.band_metrics
  let rcm := findRecommendation results.recommendations "harmonics"
  let avgThd := listAverage (sorted.filterMap (fun b => b.thd_percent))
  let avgRatio := listAverage (sorted.filterMap (fun b => b.harmonic_ratio))
  let severity : SeverityLevel :=
    match rcm with
    | some r => recSeverityToLevel r.severity
    | none =>
      match avgThd with
      | some t =>
        if t > 5 then .issue
        else if t > 3 then .attention
        else .good
      | none => .good
  { category := "harmonics"
    title := "Harmonics"
    severity := severity
    primaryValue := formatPercent avgThd
    primaryLabel := "Average THD"
    secondaryValue := formatDecimal avgRatio 2
    secondaryLabel := "Harmonic Ratio"
    bands := sorted.map (fun b =>
      { bandName := getBandDisplayName b.band_name
        value := b.thd_percent.getD 0
        unit := "%"
        color := getBandColor b.band_name })
    recommendation := getRecommendationText rcm results.recommendation_level
    expanded := expanded }

def mapTransients (results : AnalysisResponse) (expanded : Bool) :
    MetricCardData :=
  let sorted := sortBands results.band_metrics
  let rcm := findRecommendation results.recommendations "transients"
  let avgPres := listAverage (sorted.filterMap (fun b => b.transient_preservation))
  let avgAttack := listAverage (sorted.filterMap (fun b => b.attack_time_ms))
  let severity : SeverityLevel :=
    match rcm with
    | some r => recSeverityToLevel r.severity
    | none =>
      match avgPres with
      | some p =>
        if p < 1/2 then .issue
        else if p < 7/10 then .attention
        else .good
      | none => .good
  { category := "transients"
    title := "Transients"
    severity := severity
    primaryValue := formatDecimal avgPres 2
    primaryLabel := "Transient Preservation"
    secondaryValue := formatMs avgAttack
    secondaryLabel := "Avg Attack Time"
    bands := sorted.map (fun b =>
      { bandName := getBandDisplayName b.band_name
        value := b.transient_preservation.getD 0
        unit := ""
        color := getBandColor b.band_name })
    recommendation := getRecommendationText rcm results.recommendation_level
    expanded := expanded }

def mapAnalysisToCards (results : AnalysisResponse)
    (expandedCards : List String) : List MetricCardData :=
  [mapLoudness results (expandedCards.contains "loudness"),
    mapDynamics results (expandedCards.contains "dynamics"),
    mapFrequency results (expandedCards.contains "frequency"),
    mapStereo results (expandedCards.contains "stereo"),
    mapHarmonics results (expandedCards.contains "harmonics"),
    mapTransients results (expandedCards.contains "transients")]

/-- The nullable per-band metric that each card category charts. -/
def bandMetricFor : String → BandMetricResponse → Option ℚ
  | "loudness", b => b.band_rms_dbfs
  | "dynamics", b => b.dynamic_range_db
  | "frequency", b => b.energy_db
  | "stereo", b => b.stereo_width_percent
  | "harmonics", b => b.thd_percent
  | "transients", b => b.transient_preservation
  | _, _ => none

theorem bandMetricFor_loudness (b : BandMetricResponse) :
    bandMetricFor "loudness" b = b.band_rms_dbfs := rfl

theorem bandMetricFor_dynamics (b : BandMetricResponse) :
    bandMetricFor "dynamics" b = b.dynamic_range_db := rfl

theorem bandMetricFor_frequency (b : BandMetricResponse) :
    bandMetricFor "frequency" b = b.energy_db := rfl

theorem bandMetricFor_stereo (b : BandMetricResponse) :
    bandMetricFor "stereo" b = b.stereo_width_percent := rfl

theorem bandMetricFor_harmonics (b : BandMetricResponse) :
    bandMetricFor "harmonics" b = b.thd_percent := rfl

theorem bandMetricFor_transients (b : BandMetricResponse) :
    bandMetricFor "transients" b = b.transient_preservation := rfl

/-- C8: for every `AnalysisResponse` (including empty `band_metrics`, null
`overall_metrics` and all-null metric fields) `mapAnalysisToCards` returns
exactly 6 cards in the fixed order loudness, dynamics, frequency, stereo,
harmonics, transients (and, being total, never throws); each card is
expanded iff its category appears in `expandedCards`; and each card's band
chart charts the category's nullable per-band metric with every null value
mapped to `0`. -/
theorem C8_mapAnalysisToCards (results : AnalysisResponse)
    (expandedCards : List String) :
    ((mapAnalysisToCards results expandedCards).map (fun c => c.category) =
      ["loudness", "dynamics", "frequency", "stereo", "harmonics",
        "transients"]) ∧
      (mapAnalysisToCards results expandedCards).length = 6 ∧
      ∀ card ∈ mapAnalysisToCards results expandedCards,
        (card.expanded = true ↔ card.category ∈ expandedCards) ∧
          card.bands.map (fun bd => bd.value) =
            (sortBands results.band_metrics).map
              (fun b => (bandMetricFor card.category b).getD 0) := by
  refine ⟨rfl, rfl, ?_⟩
  intro card hc
  simp only [mapAnalysisToCards, List.mem_cons, List.not_mem_nil, or_false]
    at hc
  rcases hc with h | h | h | h | h | h <;> subst h <;> refine ⟨?_, ?_⟩ <;>
    simp [mapLoudness, mapDynamics, mapFrequency, mapStereo, mapHarmonics,
      mapTransients, List.map_map, bandMetricFor_loudness,
      bandMetricFor_dynamics, bandMetricFor_frequency, bandMetricFor_stereo,
      bandMetricFor_harmonics, bandMetricFor_transients, Function.comp]

/-- C8 witness: for the empty analysis and `expandedCards = ["loudness"]`,
the loudness card is expanded and its (empty) band chart matches. -/
theorem C8_witness :
    ((mapLoudness ⟨"analytical", [], none, []⟩
        ((["loudness"] : List String).contains "loudness")).expanded = true ↔
      (mapLoudness ⟨"analytical", [], none, []⟩
        ((["loudness"] : List String).contains "loudness")).category ∈
          (["loudness"] : List String)) ∧
      (mapLoudness ⟨"analytical", [], none, []⟩
        ((["loudness"] : List String).contains "loudness")).bands.map
          (fun bd => bd.value) =
        (sortBands ([] : List BandMetricResponse)).map
          (fun b => (bandMetricFor
            (mapLoudness ⟨"analytical", [], none, []⟩
              ((["loudness"] : List String).contains "loudness")).category
            b).getD 0) :=
  (C8_mapAnalysisToCards ⟨"analytical", [], none, []⟩ ["loudness"]).2.2 _
    (List.mem_cons_self _ _)

/-!
### Batch processing
`processBatch` in `src/unnamed/part_021` (`useBatchAnalysis` hook), with
the Redux reducers (`updateBatchFileStatus`, `setBatchFileError`, ...)
from the analysis slice, and the batch workflow document
`src/unnamed/part_026`.

`processBatch` first returns early when the API client is missing, when a
batch run is already in progress, or when no file has status `pending`;
otherwise it iterates the files in order with `for … of`, `continue`-ing
over files whose status is already `complete`.  For each remaining file it
awaits the upload (`uploadAndAnalyze`), then the WebSocket progress stream
until a `complete` or `error` message, then the result fetch
(`getAnalysisResults`); a throw anywhere in this pipeline is caught,
`setBatchFileError` marks that file `error` with the message, and the loop
`continue`s with the next file.  The three awaited stages of one file are
modelled as an oracle `FilePipeline`; each stage either succeeds or
throws with a message.  Intermediate `band_progress` updates lie below
this abstraction (only the `progress = 100` write of the `complete`
message is modelled), and the Redux dispatches that select files for the
main pane are orthogonal to the claim and omitted.
-/

inductive FileStatus where
  | pending
  | analyzing
  | complete
  | error
  deriving Repr, DecidableEq

structure BatchFileState where
  id : Nat
  status : FileStatus
  progress : Nat
  errorMsg : Option String
  deriving Repr, DecidableEq

structure FilePipeline where
  upload : Except String String
  stream : String → Except String Unit
  fetch : String → Except String Unit

inductive BatchEvent where
  | started (id : Nat)
  | uploadDone (id : Nat) (analysisId : String)
  | streamDone (id : Nat)
  | fetchDone (id : Nat)
  | failed (id : Nat) (msg : String)
  deriving Repr, DecidableEq

/-- One loop iteration of `processBatch` for a non-complete file: the
resulting file record (via the Redux reducers) and the trace of completed
pipeline stages.  On the success path the `complete` WebSocket message
sets status `complete` and progress `100`; `setBatchFileError` sets
status `error` and the message (the stale `progress` and `errorMsg`
values are not cleared by any reducer, matching the source). -/
def processOne (pipeline : Nat → FilePipeline) (f : BatchFileState) :
    BatchFileState × List BatchEvent :=
  match (pipeline f.id).upload with
  | .error m =>
    ({ f with status := .error, errorMsg := some m },
      [.started f.id, .failed f.id m])
  | .ok aid =>
    match (pipeline f.id).stream aid with
    | .error m =>
      ({ f with status := .error, errorMsg := some m },
        [.started f.id, .uploadDone f.id aid, .failed f.id m])
    | .ok _ =>
      match (pipeline f.id).fetch aid with
      | .error m =>
        ({ f with status := .error, progress := 100, errorMsg := some m },
          [.started f.id, .uploadDone f.id aid, .streamDone f.id,
            .failed f.id m])
      | .ok _ =>
        ({ f with status := .complete, progress := 100 },
          [.started f.id, .uploadDone f.id aid, .streamDone f.id,
            .fetchDone f.id])

/-- The `for … of` loop of `processBatch`. -/
def processFiles (pipeline : Nat → FilePipeline) :
    List BatchFileState → List BatchFileState × List BatchEvent
  | [] => ([], [])
  | f :: rest =>
    if f.status = .complete then
      let r := processFiles pipeline rest
      (f :: r.1, r.2)
    else
      let p := processOne pipeline f
      let r := processFiles pipeline rest
      (p.1 :: r.1, p.2 ++ r.2)

def processBatch (hasApiClient alreadyProcessing : Bool)
    (files : List BatchFileState) (pipeline : Nat → FilePipeline) :
    List BatchFileState × List BatchEvent :=
  if !hasApiClient || alreadyProcessing then (files, [])
  else if (files.find? (fun f => f.status == .pending)).isNone then
    (files, [])
  else processFiles pipeline files

/-- The overall outcome of one file's three-stage pipeline. -/
def pipelineResult (p : FilePipeline) : Except String Unit :=
  match p.upload with
  | .error m => .error m
  | .ok aid =>
    match p.stream aid with
    | .error m => .error m
    | .ok _ => p.fetch aid

/-- C2 counterexample: a batch whose only file is in status `error` (a
failed earlier run awaiting retry) has no `pending` file, so `processBatch`
returns at the `firstPendingFile` guard: the file is neither `complete`
nor processed — no pipeline stage runs and its status stays `error` even
though its pipeline would succeed — refuting "every remaining file is
still processed". -/
theorem C2_counterexample :
    (processBatch true false [⟨0, .error, 0, some "previous failure"⟩]
        (fun _ => ⟨.ok "aid", fun _ => .ok (), fun _ => .ok ()⟩)).1 =
      [⟨0, .error, 0, some "previous failure"⟩] ∧
      (processBatch true false [⟨0, .error, 0, some "previous failure"⟩]
        (fun _ => ⟨.ok "aid", fun _ => .ok (), fun _ => .ok ()⟩)).2 = [] ∧
      FileStatus.error ≠ FileStatus.complete ∧
      pipelineResult ⟨.ok "aid", fun _ => .ok (), fun _ => .ok ()⟩ =
        .ok () := by
  refine ⟨rfl, rfl, by decide, rfl⟩

theorem processOne_ok (pipeline : Nat → FilePipeline) (f : BatchFileState)
    (h : pipelineResult (pipeline f.id) = .ok ()) :
    (processOne pipeline f).1 =
      { f with status := .complete, progress := 100 } := by
  unfold processOne
  unfold pipelineResult at h
  cases hu : (pipeline f.id).upload with
  | error m =>
    rw [hu] at h
    exact Except.noConfusion h
  | ok aid =>
    rw [hu] at h
    dsimp only at h ⊢
    cases hs : (pipeline f.id).stream aid with
    | error m =>
      rw [hs] at h
      exact Except.noConfusion h
    | ok u =>
      rw [hs] at h
      dsimp only at h ⊢
      cases hf : (pipeline f.id).fetch aid with
      | error m =>
        rw [hf] at h
        exact Except.noConfusion h
      | ok u2 => rfl

theorem processOne_err (pipeline : Nat → FilePipeline) (f : BatchFileState)
    (m : String) (h : pipelineResult (pipeline f.id) = .error m) :
    (processOne pipeline f).1.status = .error ∧
      (processOne pipeline f).1.errorMsg = some m := by
  unfold processOne
  unfold pipelineResult at h
  cases hu : (pipeline f.id).upload with
  | error m1 =>
    rw [hu] at h
    cases h
    exact ⟨rfl, rfl⟩
  | ok aid =>
    rw [hu] at h
    dsimp only at h ⊢
    cases hs : (pipeline f.id).stream aid with
    | error m1 =>
      rw [hs] at h
      cases h
      exact ⟨rfl, rfl⟩
    | ok u =>
      rw [hs] at h
      dsimp only at h ⊢
      cases hf : (pipeline f.id).fetch aid with
      | error m1 =>
        rw [hf] at h
        cases h
        exact ⟨rfl, rfl⟩
      | ok u2 =>
        rw [hf] at h
        exact Except.noConfusion h

theorem processFiles_spec (pipeline : Nat → FilePipeline)
    (files : List BatchFileState) :
    (processFiles pipeline files).1 = files.map (fun f =>
        if f.status = .complete then f else (processOne pipeline f).1) ∧
      (processFiles pipeline files).2 =
        (files.filter (fun f => ! (f.status == .complete))).flatMap
          (fun f => (processOne pipeline f).2) := by
  induction files with
  | nil => exact ⟨rfl, rfl⟩
  | cons f rest ih =>
    by_cases hf : f.status = .complete
    · have h1 : processFiles pipeline (f :: rest) =
          (f :: (processFiles pipeline rest).1,
            (processFiles pipeline rest).2) := by
        simp only [processFiles, if_pos hf]
      rw [h1]
      simp only [List.map_cons, if_pos hf, List.filter_cons]
      have hb : (! (f.status == FileStatus.complete)) = false := by
        simp [hf]
      rw [hb]
      exact ⟨by rw [ih.1], by simpa using ih.2⟩
    · have h1 : processFiles pipeline (f :: rest) =
          ((processOne pipeline f).1 :: (processFiles pipeline rest).1,
            (processOne pipeline f).2 ++ (processFiles pipeline rest).2) := by
        simp only [processFiles, if_neg hf]
      rw [h1]
      simp only [List.map_cons, if_neg hf, List.filter_cons]
      have hb : (! (f.status == FileStatus.complete)) = true := by
        simp [hf]
      rw [hb]
      refine ⟨by rw [ih.1], ?_⟩
      simp only [if_true]
      rw [List.flatMap_cons, ih.2]

/-- C2 (amended): provided the API client is present, no batch run is
already in progress, and at least one file is in status `pending`,
`processBatch` iterates the files strictly sequentially in input order —
the event trace is the in-order concatenation of each non-complete file's
own pipeline trace, so one file's upload, progress stream and result
fetch all finish before the next file starts — skipping files already
`complete` (they are returned untouched); a file whose pipeline throws is
marked `error` with that error message while every other file is still
processed; a file whose pipeline succeeds is marked `complete` with
progress `100`. -/
theorem C2_processBatch (hasApiClient alreadyProcessing : Bool)
    (files : List BatchFileState) (pipeline : Nat → FilePipeline)
    (h1 : hasApiClient = true) (h2 : alreadyProcessing = false)
    (h3 : ∃ f ∈ files, f.status = .pending) :
    (processBatch hasApiClient alreadyProcessing files pipeline).1 =
        files.map (fun f =>
          if f.status = .complete then f else (processOne pipeline f).1) ∧
      (processBatch hasApiClient alreadyProcessing files pipeline).2 =
        (files.filter (fun f => ! (f.status == .complete))).flatMap
          (fun f => (processOne pipeline f).2) ∧
      (∀ f : BatchFileState, pipelineResult (pipeline f.id) = .ok () →
        (processOne pipeline f).1 =
          { f with status := .complete, progress := 100 }) ∧
      (∀ (f : BatchFileState) (m : String),
        pipelineResult (pipeline f.id) = .error m →
        (processOne pipeline f).1.status = .error ∧
          (processOne pipeline f).1.errorMsg = some m) := by
  subst h1 h2
  have hsome : (files.find? (fun f => f.status == .pending)).isSome = true := by
    rw [List.find?_isSome]
    obtain ⟨f, hmem, hstat⟩ := h3
    exact ⟨f, hmem, by simp [hstat]⟩
  have hguard : (files.find? (fun f => f.status == .pending)).isNone = false := by
    cases hfind : files.find? (fun f => f.status == .pending) with
    | none =>
      rw [hfind] at hsome
      exact absurd hsome (by simp)
    | some f => rfl
  have hrun : processBatch true false files pipeline =
      processFiles pipeline files := by
    unfold processBatch
    rw [hguard]
    simp
  rw [hrun]
  exact ⟨(processFiles_spec pipeline files).1,
    (processFiles_spec pipeline files).2,
    fun f hf => processOne_ok pipeline f hf,
    fun f m hm => processOne_err pipeline f m hm⟩

/-- C2 witness: a three-file batch — a pending file whose pipeline
succeeds, a pending file whose stream fails, and an already-complete
file — yields complete/error/untouched states and the in-order
concatenated trace of the two processed files. -/
theorem C2_witness :
    (processBatch true false
        [⟨0, .pending, 0, none⟩, ⟨1, .pending, 0, none⟩,
          ⟨2, .complete, 100, none⟩]
        (fun i => if i = 1 then
            ⟨.ok "a1", fun _ => .error "Connection lost during analysis",
              fun _ => .ok ()⟩
          else ⟨.ok "a0", fun _ => .ok (), fun _ => .ok ()⟩)).1 =
      [⟨0, .complete, 100, none⟩,
        ⟨1, .error, 0, some "Connection lost during analysis"⟩,
        ⟨2, .complete, 100, none⟩] ∧
      (processBatch true false
        [⟨0, .pending, 0, none⟩, ⟨1, .pending, 0, none⟩,
          ⟨2, .complete, 100, none⟩]
        (fun i => if i = 1 then
            ⟨.ok "a1", fun _ => .error "Connection lost during analysis",
              fun _ => .ok ()⟩
          else ⟨.ok "a0", fun _ => .ok (), fun _ => .ok ()⟩)).2 =
      [.started 0, .uploadDone 0 "a0", .streamDone 0, .fetchDone 0,
        .started 1, .uploadDone 1 "a1",
        .failed 1 "Connection lost during analysis"] := by
  have h := C2_processBatch true false
    [⟨0, .pending, 0, none⟩, ⟨1, .pending, 0, none⟩,
      ⟨2, .complete, 100, none⟩]
    (fun i => if i = 1 then
        ⟨.ok "a1", fun _ => .error "Connection lost during analysis",
          fun _ => .ok ()⟩
      else ⟨.ok "a0", fun _ => .ok (), fun _ => .ok ()⟩)
    rfl rfl ⟨⟨0, .pending, 0, none⟩, by simp, rfl⟩
  refine ⟨?_, ?_⟩
  · rw [h.1]; rfl
  · rw [h.2.1]; rfl

end AudioTool
